import Mathlib

/-!
# Verification of pytestsalt daemon fixtures and log relay

A shallow embedding of the code in `pytestsalt/fixtures/daemons.py` and
`pytestsalt/salt/log_handlers/pytest_log_handler.py`, with theorems about
the port-probing readiness loop, the log relay loop, the helper-probe
executor, the teardown sequences and the verbosity/log-level mapping.

Modelling conventions:
* time is discrete, one tick = one poll interval (the `time.sleep(0.125)`
  of the probing loop); `connAt t p` is the environment oracle saying
  whether TCP port `p` accepts a connection at tick `t`;
* Python exceptions are `Except`/explicit outcome values; a function whose
  Lean type is total cannot raise;
* side effects (socket lifecycle, signals, helper spawns, local log
  warnings) are recorded as explicit event traces.
-/

namespace PytestSalt

/-! ## `get_log_level_name` (daemons.py lines 43-57)

`HANDLED_LEVELS` is the dict `{2: 'warning', 3: 'info', 4: 'debug',
5: 'trace', 6: 'garbage'}`; `HANDLED_LEVELS k` models `dict.get(k)`
(`none` = Python `None` for a missing key). -/

def HANDLED_LEVELS (k : Int) : Option String :=
  if k = 2 then some "warning"
  else if k = 3 then some "info"
  else if k = 4 then some "debug"
  else if k = 5 then some "trace"
  else if k = 6 then some "garbage"
  else none

/-- `HANDLED_LEVELS.get(verbosity, HANDLED_LEVELS.get(verbosity > 6 and 6 or 2))`:
the outer two-argument `get` falls back to the inner lookup, whose key is
`6` when `verbosity > 6` and `2` otherwise (Python `and`/`or` on the bool). -/
def get_log_level_name (verbosity : Int) : Option String :=
  match HANDLED_LEVELS verbosity with
  | some s => some s
  | none => HANDLED_LEVELS (if verbosity > 6 then 6 else 2)

/-! ## Port-probing readiness loop
(`SaltCliMinion.wait_until_running` lines 505-525 and
`SaltCliMaster.wait_until_running` lines 585-607 of daemons.py; the two
bodies are textually identical apart from the set of configured ports.) -/

/-- Socket lifecycle events of one probing pass, keyed by (tick, port):
`socket.socket(...)`, `connect_ex`, and on success `shutdown` then
`close`; `deleted` is the `del sock` statement (dropping the name binding,
not an explicit close). -/
inductive SockEv where
  | opened (t p : Nat)
  | connected (t p : Nat) (ok : Bool)
  | shutdownEv (t p : Nat)
  | closed (t p : Nat)
  | deleted (t p : Nat)
deriving DecidableEq, Repr

/-- One port's turn of the `for port in set(check_ports):` body at tick
`t`: open a socket, `connect_ex`, and when the connection succeeded
(`conn == 0`) shut the socket down and close it; in every case the body
ends with `del sock` (dropping the name binding — an explicit `close()`
happens only on the success path). -/
def portProbeEvents (connAt : Nat → Nat → Bool) (t p : Nat) : List SockEv :=
  if connAt t p then
    [SockEv.opened t p, SockEv.connected t p true, SockEv.shutdownEv t p,
      SockEv.closed t p, SockEv.deleted t p]
  else
    [SockEv.opened t p, SockEv.connected t p false, SockEv.deleted t p]

/-- The whole probing pass at tick `t`: the loop body once per pending port. -/
def probeTrace (connAt : Nat → Nat → Bool) (t : Nat) (ports : List Nat) : List SockEv :=
  ports.flatMap (portProbeEvents connAt t)

/-- `check_ports` after the probing pass at tick `t`: every port whose
connect succeeded was removed (`check_ports.remove(port)`). -/
def pendingAfter (connAt : Nat → Nat → Bool) (t : Nat) (ports : List Nat) : List Nat :=
  ports.filter fun p => !(connAt t p)

/-- What one run of the `while True:` loop yields: the tick at which it
returned, the value of `connectable` returned, and the socket events. -/
structure LoopOut where
  time : Nat
  result : Bool
  trace : List SockEv
deriving DecidableEq, Repr

/-- The `while True:` loop with `until` assigned (`deadline`), entered at
tick `t`: `if not check_ports: connectable = True; break`, then
`if time.time() >= until: break`, then one probing pass and
`time.sleep(0.125)` (one tick). -/
def wait_loop (connAt : Nat → Nat → Bool) (deadline t : Nat) (ports : List Nat) : LoopOut :=
  if ports.isEmpty then ⟨t, true, []⟩
  else if deadline ≤ t then ⟨t, false, []⟩
  else
    let rest := wait_loop connAt deadline (t + 1) (pendingAfter connAt t ports)
    ⟨rest.time, rest.result, probeTrace connAt t ports ++ rest.trace⟩
termination_by deadline - t
decreasing_by simp_wf; omega

/-- Python errors the embedded code can raise. -/
inductive PyErr where
  | unboundLocalError
  | osError
deriving DecidableEq, Repr

/-- `wait_until_running(self, timeout=None)` over a configured list of
ports: when `timeout` is given, `until = time.time() + timeout` and the
loop runs; when `timeout` is `None`, `until` is never assigned, so the
loop raises `UnboundLocalError` at `time.time() >= until` unless
`check_ports` was empty at the first iteration (in which case it returns
`True` without reading `until`). -/
def wait_until_running (connAt : Nat → Nat → Bool) (t0 : Nat)
    (timeout : Option Nat) (ports : List Nat) : Except PyErr LoopOut :=
  match timeout with
  | some T => Except.ok (wait_loop connAt (t0 + T) t0 ports)
  | none =>
      if ports.isEmpty then Except.ok ⟨t0, true, []⟩
      else Except.error PyErr.unboundLocalError

/-- The `self.config` fields `SaltCliMinion.wait_until_running` reads. -/
structure MinionConfig where
  pytest_port : Nat
deriving DecidableEq, Repr

/-- The `self.config` fields `SaltCliMaster.wait_until_running` reads. -/
structure MasterConfig where
  ret_port : Nat
  publish_port : Nat
  pytest_port : Nat
deriving DecidableEq, Repr

/-- `check_ports = set([self.config['pytest_port']])` (line 508). -/
def minionCheckPorts (cfg : MinionConfig) : List Nat :=
  [cfg.pytest_port].dedup

/-- `check_ports = set([self.config['ret_port'], self.config['publish_port'],
self.config['pytest_port']])` (lines 588-590). -/
def masterCheckPorts (cfg : MasterConfig) : List Nat :=
  [cfg.ret_port, cfg.publish_port, cfg.pytest_port].dedup

def SaltCliMinion.wait_until_running (connAt : Nat → Nat → Bool) (t0 : Nat)
    (timeout : Option Nat) (cfg : MinionConfig) : Except PyErr LoopOut :=
  PytestSalt.wait_until_running connAt t0 timeout (minionCheckPorts cfg)

def SaltCliMaster.wait_until_running (connAt : Nat → Nat → Bool) (t0 : Nat)
    (timeout : Option Nat) (cfg : MasterConfig) : Except PyErr LoopOut :=
  PytestSalt.wait_until_running connAt t0 timeout (masterCheckPorts cfg)

/-- The socket-event trace of a `wait_until_running` call (empty when the
call raised before probing anything). -/
def traceOf (r : Except PyErr LoopOut) : List SockEv :=
  match r with
  | Except.ok o => o.trace
  | Except.error _ => []

/-! ## Log relay loop (`process_queue`, pytest_log_handler.py lines 46-67) -/

/-- A log record: its `msg` field and the rest of `record.__dict__`. -/
structure LogRecord where
  msg : String
  rest : List (String × String)
deriving DecidableEq, Repr

/-- How handling one record goes in the environment: everything succeeds;
one of `IOError`, `EOFError`, `KeyboardInterrupt`, `SystemExit` is raised
(e.g. `sock.sendall` on a lost connection); or any other `Exception` is
raised (e.g. `msgpack.dumps` on an unencodable record). -/
inductive SendOutcome where
  | ok
  | connErr
  | otherErr
deriving DecidableEq, Repr

/-- A value popped from the queue: the `None` sentinel, or a record tagged
with how handling it will go. -/
inductive QItem where
  | sentinel
  | record (r : LogRecord) (b : SendOutcome)
deriving DecidableEq, Repr

/-- `record_dict['msg'] = prefix + record_dict['msg']` followed by
`msgpack.dumps(record_dict)`: the bytes sent are determined by the
prefixed dict, modelled by the dict itself. -/
def encodeRecord (pfx : String) (r : LogRecord) : List (String × String) :=
  ("msg", pfx ++ r.msg) :: r.rest

/-- How the relay loop stopped: `break` on the sentinel, `break` in the
`except (IOError, EOFError, KeyboardInterrupt, SystemExit)` clause, or the
queue ran dry and `queue.get()` blocks forever. -/
inductive RelayExit where
  | sentinelStop
  | connStop
  | blockedOnQueue
deriving DecidableEq, Repr

/-- What one run of the relay loop did: the messages passed to
`sock.sendall` in order, how many warnings the broad `except Exception`
clause logged, and how the loop stopped. -/
structure RelayOut where
  sent : List (List (String × String))
  warnings : Nat
  exitKind : RelayExit
deriving DecidableEq, Repr

/-- The `while True:` body of `process_queue`: pop a record; `None` breaks
the loop; a record is prefixed, encoded and sent; `IOError`/`EOFError`/
`KeyboardInterrupt`/`SystemExit` break the loop silently; any other
exception is logged with `log.warning` and the loop continues. The
function is total: no exception escapes the loop. -/
def process_queue (pfx : String) : List QItem → RelayOut
  | [] => ⟨[], 0, RelayExit.blockedOnQueue⟩
  | QItem.sentinel :: _ => ⟨[], 0, RelayExit.sentinelStop⟩
  | QItem.record r SendOutcome.ok :: rest =>
      let out := process_queue pfx rest
      ⟨encodeRecord pfx r :: out.sent, out.warnings, out.exitKind⟩
  | QItem.record _ SendOutcome.connErr :: _ => ⟨[], 0, RelayExit.connStop⟩
  | QItem.record _ SendOutcome.otherErr :: rest =>
      let out := process_queue pfx rest
      ⟨out.sent, out.warnings + 1, out.exitKind⟩

/-- Shorthand: a record whose handling succeeds. -/
def okItem (r : LogRecord) : QItem := QItem.record r SendOutcome.ok

/-! ## Helper probe (`SaltCliMinion._salt_call`, daemons.py lines 549-577) -/

/-- What `proc.wait(timeout)` observes of the helper `salt-call` process:
it finished with some return code within the bounded wait, or
`TimedProcTimeoutError` was raised. -/
inductive HelperOutcome where
  | completed (retcode : Int)
  | timedOut
deriving DecidableEq, Repr

/-- Observable events of `_executor_run`: the `TimedProc` spawn, the
`log.warning('salt-call finished. retcode: %s', ...)` on completion, and
the `log.warning('Timed out!!! ...')` in the `except TimedProcTimeoutError`
clause. -/
inductive CallEv where
  | spawnedHelper
  | loggedRetcode (rc : Int)
  | warnedTimeout
deriving DecidableEq, Repr

/-- `_executor_run`: spawn the helper once, wait with the bounded timeout;
on completion return `proc.process.returncode == 0`; on
`TimedProcTimeoutError` log a warning and return `False`. No retry is
performed; the result is always a boolean, never a raised exception. -/
def executor_run (outcome : HelperOutcome) : Bool × List CallEv :=
  match outcome with
  | HelperOutcome.completed rc => (rc == 0, [CallEv.spawnedHelper, CallEv.loggedRetcode rc])
  | HelperOutcome.timedOut => (false, [CallEv.spawnedHelper, CallEv.warnedTimeout])

/-- `_salt_call` submits `_executor_run` to the executor exactly once and
the probe's result is the job's result. -/
def salt_call (outcome : HelperOutcome) : Bool × List CallEv :=
  executor_run outcome

/-! ## Teardown sequences (daemons.py `salt_master` fixture lines 104-108
and `cli_salt_master` fixture lines 182-189) -/

/-- The supervised process as `os.kill`/`join`/`terminate` see it:
still running, exited but not yet reaped (a zombie: `os.kill` still
succeeds), or reaped (a previous `join` collected it: `os.kill` raises
`OSError`). -/
inductive ProcState where
  | alive
  | zombie
  | reaped
deriving DecidableEq, Repr

/-- Teardown events: the `os.kill(..., signal.SIGTERM)` call, an actual
SIGTERM delivery to a live process, the `join()`, and the `terminate()`
(a no-op after `join` has reaped the process). -/
inductive TdEv where
  | killCalled
  | sigtermDelivered
  | joined
  | terminated
deriving DecidableEq, Repr

/-- `os.kill(pid, signal.SIGTERM)`: on a live process the signal is
delivered; on a zombie the call succeeds without effect; on a reaped pid
it raises `OSError` (`ProcessLookupError`). -/
def osKillSigterm : ProcState → Option PyErr × List TdEv
  | ProcState.alive => (none, [TdEv.killCalled, TdEv.sigtermDelivered])
  | ProcState.zombie => (none, [TdEv.killCalled])
  | ProcState.reaped => (some PyErr.osError, [TdEv.killCalled])

/-- The `salt_master` fixture's teardown (lines 104-108): a bare
`os.kill(master_process.pid, signal.SIGTERM)` — not wrapped in any
`try`/`except` — then `join()` then `terminate()`. When `os.kill`
raises, the exception propagates and `join`/`terminate` never run. -/
def salt_master_teardown (s : ProcState) : Except PyErr (ProcState × List TdEv) :=
  match osKillSigterm s with
  | (some e, _) => Except.error e
  | (none, evs) => Except.ok (ProcState.reaped, evs ++ [TdEv.joined, TdEv.terminated])

/-- The `cli_salt_master` fixture's teardown (lines 182-189): the
`os.kill` is wrapped in `try: ... except OSError: pass`, then `join()`
then `terminate()`; it always completes. -/
def cli_salt_master_teardown (s : ProcState) : ProcState × List TdEv :=
  (ProcState.reaped, (osKillSigterm s).2 ++ [TdEv.joined, TdEv.terminated])

/-! ## Theorems -/

/-! ### Unfolding lemmas for the probing loop -/

theorem wait_loop_empty {connAt : Nat → Nat → Bool} {u t : Nat} {ports : List Nat}
    (hps : ports.isEmpty = true) :
    wait_loop connAt u t ports = ⟨t, true, []⟩ := by
  rw [wait_loop]; simp [hps]

theorem wait_loop_deadline {connAt : Nat → Nat → Bool} {u t : Nat} {ports : List Nat}
    (hps : ¬ports.isEmpty = true) (hut : u ≤ t) :
    wait_loop connAt u t ports = ⟨t, false, []⟩ := by
  rw [wait_loop]; simp [hps, hut]

theorem wait_loop_step {connAt : Nat → Nat → Bool} {u t : Nat} {ports : List Nat}
    (hps : ¬ports.isEmpty = true) (hut : ¬u ≤ t) :
    wait_loop connAt u t ports =
      ⟨(wait_loop connAt u (t + 1) (pendingAfter connAt t ports)).time,
        (wait_loop connAt u (t + 1) (pendingAfter connAt t ports)).result,
        probeTrace connAt t ports ++
          (wait_loop connAt u (t + 1) (pendingAfter connAt t ports)).trace⟩ := by
  rw [wait_loop]; simp [hps, hut]

/-! ### The probing loop returns true exactly when every pending port
became connectable before the deadline -/

theorem wait_loop_result_true_iff (connAt : Nat → Nat → Bool) (u t : Nat)
    (ports : List Nat) :
    (wait_loop connAt u t ports).result = true ↔
      ∀ p ∈ ports, ∃ s, t ≤ s ∧ s < u ∧ connAt s p = true := by
  induction t, ports using wait_loop.induct connAt u with
  | case1 t ps hps =>
    have : ps = [] := List.isEmpty_iff.mp hps
    subst this
    simp [wait_loop_empty hps]
  | case2 t ps hps hut =>
    have hne : ps ≠ [] := by simpa [List.isEmpty_iff] using hps
    rw [wait_loop_deadline hps hut]
    simp only [iff_iff_implies_and_implies]
    constructor
    · intro h; exact absurd h (by simp)
    · intro hall
      obtain ⟨p, hp⟩ := List.exists_mem_of_ne_nil ps hne
      obtain ⟨s, h1, h2, _⟩ := hall p hp
      omega
  | case3 t ps hps hut ih =>
    rw [wait_loop_step hps hut]
    dsimp only
    rw [ih]
    constructor
    · intro hf p hp
      by_cases hc : connAt t p = true
      · exact ⟨t, le_refl t, by omega, hc⟩
      · have hpf : p ∈ pendingAfter connAt t ps := by
          simp [pendingAfter, List.mem_filter, hp, hc]
        obtain ⟨s, h1, h2, h3⟩ := hf p hpf
        exact ⟨s, by omega, h2, h3⟩
    · intro hall p hp
      obtain ⟨hp', hcp⟩ :=
        (by simpa [pendingAfter] using hp : p ∈ ps ∧ connAt t p = false)
      obtain ⟨s, h1, h2, h3⟩ := hall p hp'
      have hst : s ≠ t := by
        intro e; subst e
        rw [h3] at hcp
        exact absurd hcp (by simp)
      exact ⟨s, by omega, h2, h3⟩

/-! ### The probing loop returns by the deadline -/

theorem wait_loop_time_le (connAt : Nat → Nat → Bool) (u t : Nat)
    (ports : List Nat) : t ≤ u → (wait_loop connAt u t ports).time ≤ u := by
  induction t, ports using wait_loop.induct connAt u with
  | case1 t ps hps => intro h; rw [wait_loop_empty hps]; exact h
  | case2 t ps hps hut => intro h; rw [wait_loop_deadline hps hut]; exact h
  | case3 t ps hps hut ih =>
    intro h
    rw [wait_loop_step hps hut]
    exact ih (by omega)

/-! ### With no port ever connectable, the loop polls the full timeout -/

theorem wait_loop_never_connectable (u t : Nat) (ports : List Nat)
    (hne : ports ≠ []) (h : t ≤ u) :
    (wait_loop (fun _ _ => false) u t ports).time = u ∧
      (wait_loop (fun _ _ => false) u t ports).result = false := by
  induction t, ports using wait_loop.induct (fun _ _ => false) u with
  | case1 t ps hps => exact absurd (List.isEmpty_iff.mp hps) hne
  | case2 t ps hps hut =>
    rw [wait_loop_deadline hps hut]
    refine ⟨?_, rfl⟩
    show t = u
    omega
  | case3 t ps hps hut ih =>
    rw [wait_loop_step hps hut]
    have hpend : pendingAfter (fun _ _ => false) t ps = ps := by
      simp [pendingAfter]
    rw [hpend] at ih ⊢
    exact ih hne (by omega)

/-! ### Socket lifecycle along the probing trace -/

theorem opened_mem_probeTrace {connAt : Nat → Nat → Bool} {t : Nat}
    {ports : List Nat} {s q : Nat} :
    SockEv.opened s q ∈ probeTrace connAt t ports ↔ s = t ∧ q ∈ ports := by
  simp only [probeTrace, List.mem_flatMap]
  constructor
  · rintro ⟨a, ha, hmem⟩
    by_cases hc : connAt t a <;>
      simp [portProbeEvents, hc] at hmem <;>
      exact ⟨hmem.1, hmem.2 ▸ ha⟩
  · rintro ⟨rfl, hq⟩
    refine ⟨q, hq, ?_⟩
    by_cases hc : connAt s q <;> simp [portProbeEvents, hc]

theorem deleted_mem_probeTrace {connAt : Nat → Nat → Bool} {t p : Nat}
    {ports : List Nat} (hp : p ∈ ports) :
    SockEv.deleted t p ∈ probeTrace connAt t ports := by
  simp only [probeTrace, List.mem_flatMap]
  refine ⟨p, hp, ?_⟩
  by_cases hc : connAt t p <;> simp [portProbeEvents, hc]

theorem closed_mem_probeTrace {connAt : Nat → Nat → Bool} {t p : Nat}
    {ports : List Nat} (hp : p ∈ ports) (hc : connAt t p = true) :
    SockEv.closed t p ∈ probeTrace connAt t ports := by
  simp only [probeTrace, List.mem_flatMap]
  exact ⟨p, hp, by simp [portProbeEvents, hc]⟩

theorem wait_loop_socket_hygiene (connAt : Nat → Nat → Bool) (u t : Nat)
    (ports : List Nat) :
    ∀ s p, SockEv.opened s p ∈ (wait_loop connAt u t ports).trace →
      SockEv.deleted s p ∈ (wait_loop connAt u t ports).trace ∧
        (connAt s p = true → SockEv.closed s p ∈ (wait_loop connAt u t ports).trace) := by
  induction t, ports using wait_loop.induct connAt u with
  | case1 t ps hps => rw [wait_loop_empty hps]; simp
  | case2 t ps hps hut => rw [wait_loop_deadline hps hut]; simp
  | case3 t ps hps hut ih =>
    intro s p hop
    rw [wait_loop_step hps hut] at hop ⊢
    dsimp only at hop ⊢
    rcases List.mem_append.mp hop with h | h
    · obtain ⟨rfl, hpp⟩ := opened_mem_probeTrace.mp h
      exact ⟨List.mem_append_left _ (deleted_mem_probeTrace hpp),
        fun hc => List.mem_append_left _ (closed_mem_probeTrace hpp hc)⟩
    · obtain ⟨h1, h2⟩ := ih s p h
      exact ⟨List.mem_append_right _ h1, fun hc => List.mem_append_right _ (h2 hc)⟩

/-- C6: `get_log_level_name` maps verbosity 2 to `warning`, 3 to `info`,
4 to `debug`, 5 to `trace`, 6 to `garbage`, every value above 6 to
`garbage` and every value at or below 1 to `warning`; it is total and
never returns a missing value (`none`). -/
theorem C6_get_log_level_name_mapping (v : Int) :
    get_log_level_name v =
      some (if 6 < v then "garbage"
            else if v = 6 then "garbage"
            else if v = 5 then "trace"
            else if v = 4 then "debug"
            else if v = 3 then "info"
            else "warning") := by
  rcases (by omega : v = 2 ∨ v = 3 ∨ v = 4 ∨ v = 5 ∨ v = 6 ∨ v < 2 ∨ 6 < v) with
    h | h | h | h | h | h | h
  · subst h; rfl
  · subst h; rfl
  · subst h; rfl
  · subst h; rfl
  · subst h; rfl
  · simp [get_log_level_name, HANDLED_LEVELS,
      show v ≠ 2 by omega, show v ≠ 3 by omega, show v ≠ 4 by omega,
      show v ≠ 5 by omega, show v ≠ 6 by omega, show ¬(6 < v) by omega]
  · simp [get_log_level_name, HANDLED_LEVELS,
      show v ≠ 2 by omega, show v ≠ 3 by omega, show v ≠ 4 by omega,
      show v ≠ 5 by omega, show v ≠ 6 by omega, h]

/-- C10: with the default `timeout=None` the deadline variable `until` is
never assigned, and since the configured check-port set is non-empty the
first loop iteration reads the unassigned variable: the call raises
`UnboundLocalError` instead of returning a boolean, for both the minion
and the master probe. -/
theorem C10_timeout_none_raises (connAt : Nat → Nat → Bool) (t0 : Nat)
    (ncfg : MinionConfig) (mcfg : MasterConfig) :
    SaltCliMinion.wait_until_running connAt t0 none ncfg
        = Except.error PyErr.unboundLocalError ∧
    SaltCliMaster.wait_until_running connAt t0 none mcfg
        = Except.error PyErr.unboundLocalError := by
  constructor <;>
    simp [SaltCliMinion.wait_until_running, SaltCliMaster.wait_until_running,
      wait_until_running, minionCheckPorts, masterCheckPorts,
      List.isEmpty_iff, List.dedup_eq_nil]

/-- C8: the submitted helper-probe job returns `true` iff the helper
process completed with exit code 0 within the bounded wait; a timeout
yields `false` (a returned probe failure, not an exception — the function
is total), the timeout path is observably distinct from a nonzero exit
(only it logs the timeout warning), and the job spawns the helper exactly
once (no retry). -/
theorem C8_salt_call_probe (o : HelperOutcome) :
    ((salt_call o).1 = true ↔ o = HelperOutcome.completed 0) ∧
    (salt_call HelperOutcome.timedOut).1 = false ∧
    ((salt_call o).2.count CallEv.spawnedHelper = 1) ∧
    (CallEv.warnedTimeout ∈ (salt_call o).2 ↔ o = HelperOutcome.timedOut) := by
  cases o <;> simp [salt_call, executor_run]

/-- C4 counterexample: the `salt_master` fixture's teardown is not
idempotent and can raise: a first run on a live process succeeds (and
reaps the process via `join`), but running the sequence a second time —
the process now already exited and reaped — makes the unguarded
`os.kill` raise `OSError`. -/
theorem C4_counterexample :
    salt_master_teardown ProcState.alive
        = Except.ok (ProcState.reaped,
            [TdEv.killCalled, TdEv.sigtermDelivered, TdEv.joined, TdEv.terminated]) ∧
    salt_master_teardown ProcState.reaped = Except.error PyErr.osError :=
  ⟨rfl, rfl⟩

/-- C4 amended: the `cli_salt_master` teardown, whose `os.kill` is wrapped
in `try`/`except OSError`, is idempotent and never raises (it is a total
function): from any process state it completes leaving the process reaped,
and a second run delivers no further SIGTERM; the plain `salt_master`
teardown, by contrast, raises `OSError` once the process has been reaped. -/
theorem C4_cli_teardown_idempotent (s : ProcState) :
    (cli_salt_master_teardown s).1 = ProcState.reaped ∧
    TdEv.sigtermDelivered ∉ (cli_salt_master_teardown (cli_salt_master_teardown s).1).2 ∧
    (cli_salt_master_teardown (cli_salt_master_teardown s).1).1 = ProcState.reaped ∧
    salt_master_teardown ProcState.reaped = Except.error PyErr.osError := by
  cases s <;> exact ⟨rfl, by decide, rfl, rfl⟩

/-- C2: for every queue of N records (whose handling succeeds) followed by
the `None` sentinel, `process_queue` sends exactly the N encoded messages
in enqueue order, each with the configured prefix prepended to its `msg`
field; the sentinel is not forwarded and stops the loop (nothing after it
is processed, zero warnings are logged), and the sentinel is the only
queue value that stops the loop gracefully (`sentinelStop`). -/
theorem C2_relay_forwards_exactly_then_stops (pfx : String)
    (records : List LogRecord) (tail : List QItem) :
    (process_queue pfx (records.map okItem ++ QItem.sentinel :: tail)
        = ⟨records.map (encodeRecord pfx), 0, RelayExit.sentinelStop⟩) ∧
    (∀ q : List QItem,
        (process_queue pfx q).exitKind = RelayExit.sentinelStop →
          QItem.sentinel ∈ q) := by
  constructor
  · induction records with
    | nil => rfl
    | cons r rs ih => simp [okItem, process_queue, ih]
  · intro q
    induction q with
    | nil => simp [process_queue]
    | cons x xs ih =>
      cases x with
      | sentinel => simp
      | record r b =>
        cases b <;> simp [process_queue] <;> intro h <;> exact ih h

/-- C7: a connection error, interrupt, or forced exit (`IOError`,
`EOFError`, `KeyboardInterrupt`, `SystemExit`) while handling a record
stops the relay loop silently — the loop returns with the messages sent
so far, logs nothing, processes nothing further, and propagates no
exception (the function is total); any other exception while handling a
record is caught, one local warning is logged, and the loop continues
with the rest of the queue unchanged. -/
theorem C7_relay_error_policy (pfx : String) (r : LogRecord)
    (pre : List LogRecord) (tail rest : List QItem) :
    (process_queue pfx (pre.map okItem ++ QItem.record r SendOutcome.connErr :: tail)
        = ⟨pre.map (encodeRecord pfx), 0, RelayExit.connStop⟩) ∧
    (process_queue pfx (QItem.record r SendOutcome.otherErr :: rest)
        = ⟨(process_queue pfx rest).sent, (process_queue pfx rest).warnings + 1,
            (process_queue pfx rest).exitKind⟩) := by
  constructor
  · induction pre with
    | nil => rfl
    | cons p ps ih => simp [okItem, process_queue, ih]
  · rfl

/-- C1: for both configured port sets (master: `ret_port`, `publish_port`,
`pytest_port`; minion: `pytest_port`), the port-probing
`wait_until_running` with a given timeout returns `True` if and only if
every port in the set accepted a connection at some probe tick before the
deadline `t0 + T` — equivalently, exactly when the pending set of
unprobed ports emptied; in particular it never returns `True` while some
configured port refused connections at every probe. -/
theorem C1_ports_ready_iff (connAt : Nat → Nat → Bool) (t0 T : Nat)
    (ncfg : MinionConfig) (mcfg : MasterConfig) :
    ((SaltCliMinion.wait_until_running connAt t0 (some T) ncfg).toOption.map
          LoopOut.result = some true ↔
      ∀ p ∈ minionCheckPorts ncfg,
        ∃ s, t0 ≤ s ∧ s < t0 + T ∧ connAt s p = true) ∧
    ((SaltCliMaster.wait_until_running connAt t0 (some T) mcfg).toOption.map
          LoopOut.result = some true ↔
      ∀ p ∈ masterCheckPorts mcfg,
        ∃ s, t0 ≤ s ∧ s < t0 + T ∧ connAt s p = true) := by
  constructor <;>
    simp [SaltCliMinion.wait_until_running, SaltCliMaster.wait_until_running,
      wait_until_running, Except.toOption, wait_loop_result_true_iff]

/-- C5: for every timeout `T`, the port-probing `wait_until_running`
(minion and master alike) terminates with a definite boolean — it returns
`Except.ok`, never raises — and it returns no later than tick
`t0 + T + 1`, i.e. within `T` plus one probe interval of being called. -/
theorem C5_wait_returns_within_timeout (connAt : Nat → Nat → Bool)
    (t0 T : Nat) (ncfg : MinionConfig) (mcfg : MasterConfig) :
    (∃ o : LoopOut,
        SaltCliMinion.wait_until_running connAt t0 (some T) ncfg = Except.ok o ∧
          o.time ≤ t0 + T + 1) ∧
    (∃ o : LoopOut,
        SaltCliMaster.wait_until_running connAt t0 (some T) mcfg = Except.ok o ∧
          o.time ≤ t0 + T + 1) := by
  refine ⟨⟨_, rfl, ?_⟩, ⟨_, rfl, ?_⟩⟩ <;>
    exact le_trans (wait_loop_time_le _ _ _ _ (by omega)) (by omega)

/-- C3 counterexample: a run in which the supervised process has exited
before readiness is modelled by no port ever accepting a connection
(`connAt = fun _ _ => false`). With timeout 8 intervals, the minion probe
does not return within one poll interval: it returns `False` only at tick
8, after polling the full timeout — so the claim that `wait_until_running`
detects non-liveness and fails within at most one poll interval is false. -/
theorem C3_counterexample :
    ((SaltCliMinion.wait_until_running (fun _ _ => false) 0 (some 8)
          ⟨1⟩).toOption.map LoopOut.time = some 8) ∧
    ((SaltCliMinion.wait_until_running (fun _ _ => false) 0 (some 8)
          ⟨1⟩).toOption.map LoopOut.result = some false) ∧
    ¬(8 ≤ 0 + 1) := by
  have h := wait_loop_never_connectable (0 + 8) 0 (minionCheckPorts ⟨1⟩)
    (by simp [minionCheckPorts]) (by omega)
  refine ⟨?_, ?_, by omega⟩ <;>
    simp [SaltCliMinion.wait_until_running, wait_until_running, Except.toOption,
      h.1, h.2]

/-- C3 amended: the port-probing `wait_until_running` performs no
liveness check on the supervised process at all. When the process exits
before readiness (no configured port ever accepts a connection), the loop
— minion and master alike — keeps polling until the deadline and returns
`False` exactly at tick `t0 + T`, the full timeout, not within one poll
interval. -/
theorem C3_dead_process_polls_full_timeout (t0 T : Nat)
    (ncfg : MinionConfig) (mcfg : MasterConfig) :
    (∃ o : LoopOut,
        SaltCliMinion.wait_until_running (fun _ _ => false) t0 (some T) ncfg
            = Except.ok o ∧ o.time = t0 + T ∧ o.result = false) ∧
    (∃ o : LoopOut,
        SaltCliMaster.wait_until_running (fun _ _ => false) t0 (some T) mcfg
            = Except.ok o ∧ o.time = t0 + T ∧ o.result = false) := by
  refine ⟨⟨_, rfl, ?_⟩, ⟨_, rfl, ?_⟩⟩
  · exact wait_loop_never_connectable _ _ _ (by simp [minionCheckPorts]) (by omega)
  · exact wait_loop_never_connectable _ _ _
      (by simp [masterCheckPorts, List.dedup_eq_nil]) (by omega)

/-- C9 counterexample: a probe whose connect attempt fails opens a socket
that is never explicitly closed. With one configured port that refuses
connections, the trace of the call holds the `opened` event but no
`closed` event — so the claim that every socket opened by the probing
loop is closed before the function returns, on failure paths too, is
false. -/
theorem C9_counterexample :
    SockEv.opened 0 1 ∈
        traceOf (SaltCliMinion.wait_until_running (fun _ _ => false) 0 (some 1) ⟨1⟩) ∧
    SockEv.closed 0 1 ∉
        traceOf (SaltCliMinion.wait_until_running (fun _ _ => false) 0 (some 1) ⟨1⟩) := by
  have e : traceOf (SaltCliMinion.wait_until_running (fun _ _ => false) 0 (some 1) ⟨1⟩)
      = [SockEv.opened 0 1, SockEv.connected 0 1 false, SockEv.deleted 0 1] := by
    simp only [SaltCliMinion.wait_until_running, wait_until_running, traceOf]
    rw [show minionCheckPorts ⟨1⟩ = [1] from rfl,
      wait_loop_step (by simp) (by omega),
      wait_loop_deadline (by simp [pendingAfter]) (by omega)]
    simp [probeTrace, portProbeEvents]
  rw [e]
  decide

/-- C9 amended: every socket the probing loop opens is released before
the function returns — `del sock` runs on every path — but an explicit
`close()` happens exactly on the success path: for every `opened` event
in the trace (minion and master alike, any timeout), the matching
`deleted` event is in the trace, and when the connect attempt succeeded
the matching `closed` event is too; when the connect attempt failed the
socket is only dereferenced, not explicitly closed. -/
theorem C9_socket_release_discipline (connAt : Nat → Nat → Bool) (t0 : Nat)
    (timeout : Option Nat) (ncfg : MinionConfig) (mcfg : MasterConfig) :
    (∀ s p,
      SockEv.opened s p ∈
          traceOf (SaltCliMinion.wait_until_running connAt t0 timeout ncfg) →
        SockEv.deleted s p ∈
            traceOf (SaltCliMinion.wait_until_running connAt t0 timeout ncfg) ∧
          (connAt s p = true →
            SockEv.closed s p ∈
              traceOf (SaltCliMinion.wait_until_running connAt t0 timeout ncfg))) ∧
    (∀ s p,
      SockEv.opened s p ∈
          traceOf (SaltCliMaster.wait_until_running connAt t0 timeout mcfg) →
        SockEv.deleted s p ∈
            traceOf (SaltCliMaster.wait_until_running connAt t0 timeout mcfg) ∧
          (connAt s p = true →
            SockEv.closed s p ∈
              traceOf (SaltCliMaster.wait_until_running connAt t0 timeout mcfg))) := by
  constructor <;>
  · intro s p
    cases timeout with
    | some T =>
      exact wait_loop_socket_hygiene connAt _ t0 _ s p
    | none =>
      simp only [SaltCliMinion.wait_until_running, SaltCliMaster.wait_until_running,
        wait_until_running]
      split <;> simp [traceOf]

end PytestSalt
